import Mathlib

/-!
Verification of the DrebinFeatureExtractor pipeline against its
natural-language specification.

The Python sources are shallowly embedded: program strings are `List Char`
(so every operation is structurally recursive and kernel-evaluable),
dictionaries are association lists preserving insertion order (Python 3.7+
dict semantics), and fallible steps return `Option`/`Except`.
-/

namespace Drebin

/-- Program strings, embedded as character lists. -/
abbrev Str := List Char

/-- Characters of a Lean string literal. -/
def strL (s : String) : Str := s.data

/-- Whitespace for Python `str.strip()` (space, tab, LF, CR, VT, FF). -/
def pyWs (c : Char) : Bool :=
  c = ' ' || c = '\t' || c = '\n' || c = '\r' || c = '\x0b' || c = '\x0c'

/-- Python `s.strip()`: drop whitespace from both ends. -/
def sTrim (s : Str) : Str :=
  ((s.dropWhile pyWs).reverse.dropWhile pyWs).reverse

/-- `pat` is a prefix of `s` (character-wise). -/
def isPrefixL : Str → Str → Bool
  | [], _ => true
  | _ :: _, [] => false
  | a :: as, b :: bs => a == b && isPrefixL as bs

/-- Python `pat in s`: `pat` occurs as a contiguous substring of `s`. -/
def containsSub (pat : Str) : Str → Bool
  | [] => isPrefixL pat []
  | c :: rest => isPrefixL pat (c :: rest) || containsSub pat rest

/-- Python `s.split(sep)` for a one-character separator. -/
def splitOnChar (sep : Char) : Str → List Str
  | [] => [[]]
  | c :: cs =>
    let r := splitOnChar sep cs
    if c = sep then [] :: r
    else
      match r with
      | [] => [[c]]
      | h :: t => (c :: h) :: t

/-- Python `s.replace(old, new)` for one-character arguments
(`report_to_feature_vector` replaces `"."` with `"_"`). -/
def replaceChar (old new : Char) (s : Str) : Str :=
  s.map fun c => if c = old then new else c

/-- Python list indexing `xs[i]`: negative indices count from the end,
out-of-range indices raise (`none`). -/
def pyGet (xs : List Str) (i : Int) : Option Str :=
  if 0 ≤ i then xs.get? i.toNat
  else
    let j : Int := (xs.length : Int) + i
    if 0 ≤ j then xs.get? j.toNat else none

/-- `utils.remove_control_chars`: drop C0 and C1 control characters. -/
def remove_control_chars (s : Str) : Str :=
  s.filter fun c => !(c.toNat < 32 || (127 ≤ c.toNat && c.toNat < 160))

/-- `utils.sanitize_to_ascii`: `encode("ascii", "replace")` maps every
non-ASCII character to `?`. -/
def sanitize_to_ascii (s : Str) : Str :=
  s.map fun c => if c.toNat ≤ 127 then c else '?'

/-! ## Feature vector dictionaries

`create_output` builds a `dict[str, str | int]`: the `sha256` entry maps to a
string, every namespaced feature key maps to the integer 1. -/

/-- A JSON-ish dictionary value: a string scalar or an integer. -/
inductive JVal where
  | s (v : Str)
  | n (v : Nat)
deriving DecidableEq

instance : Inhabited JVal := ⟨.n 1⟩

/-- A Python dict as an insertion-ordered association list. -/
abbrev Dict := List (Str × JVal)

/-- Keys of a dict, in order. -/
def dictKeys (d : Dict) : List Str := d.map Prod.fst

/-- Python `d[k] = v`: overwrite in place if the key exists (keeping its
position), otherwise append at the end. -/
def dictInsert (k : Str) (v : JVal) : Dict → Dict
  | [] => [(k, v)]
  | p :: d => if p.1 = k then (p.1, v) :: d else p :: dictInsert k v d

/-- Python `d[k]` read (keys are unique, so the first binding is the one). -/
def dictLookup (k : Str) : Dict → Option JVal
  | [] => none
  | p :: d => if p.1 = k then some p.2 else dictLookup k d

/-! ## `report.generator.report_to_feature_vector` -/

/-- The report dictionary assembled by `create_output`, with its fields in
the literal's insertion order.  `api_calls` entries are the two-element
lists `[api_call, permission]` appended by `check_api_permissions`,
embedded as pairs. -/
structure Report where
  sha256 : Str
  md5 : Str
  ssdeep : Str
  package_name : Str
  sdk_version : Str
  apk_name : Str
  app_permissions : List Str
  api_permissions : List Str
  api_calls : List (Str × Str)
  features : List Str
  intents : List Str
  activities : List Str
  s_and_r : List Str
  interesting_calls : List Str
  urls : List Str
  networks : List Str
  providers : List Str
  included_files : List Str
  detected_ad_networks : List Str
deriving DecidableEq

/-- `key_fmt` in `report_to_feature_vector`:
`f"{k}::{val.strip()}".replace(".", "_")`. -/
def key_fmt (k : Str) (val : Str) : Str :=
  replaceChar '.' '_' (k ++ strL "::" ++ sTrim val)

/-- The plain encoding branch: `for val in values: if val.strip():
output[key_fmt(k, val)] = 1`. -/
def encodePlain (k : Str) (vals : List Str) (d : Dict) : Dict :=
  vals.foldl
    (fun d val => if sTrim val = [] then d else dictInsert (key_fmt k val) (.n 1) d) d

/-- The `api_calls` branch: each entry is a `[api_call, permission]` pair and
only `val[0]` is encoded. -/
def encodeApiCalls (vals : List (Str × Str)) (d : Dict) : Dict :=
  vals.foldl
    (fun d val =>
      if sTrim val.1 = [] then d
      else dictInsert (key_fmt (strL "api_calls") val.1) (.n 1) d) d

/-- The key contributed by one `interesting_calls` value, if any:
`"HttpPost" in val` keys the first space-separated token (`val.split(" ")[0]`);
values containing both `(` and `;` are skipped; blank values are skipped;
remaining values are keyed whole. -/
def interestingKey (val : Str) : Option Str :=
  if containsSub (strL "HttpPost") val then
    some (key_fmt (strL "interesting_calls") ((splitOnChar ' ' val).headD []))
  else if val.contains '(' && val.contains ';' then none
  else if sTrim val = [] then none
  else some (key_fmt (strL "interesting_calls") val)

/-- The `interesting_calls` branch of `report_to_feature_vector`. -/
def encodeInteresting (vals : List Str) (d : Dict) : Dict :=
  vals.foldl
    (fun d val =>
      match interestingKey val with
      | some key => dictInsert key (.n 1) d
      | none => d) d

/-- `report_to_feature_vector`: seed the output with the `sha256` scalar and
iterate over the report dict in insertion order, encoding exactly the ten
namespaced categories (the scalar fields and `networks`, `included_files`,
`detected_ad_networks` are not encoded). -/
def report_to_feature_vector (r : Report) : Dict :=
  let d : Dict := [(strL "sha256", .s r.sha256)]
  let d := encodePlain (strL "app_permissions") r.app_permissions d
  let d := encodePlain (strL "api_permissions") r.api_permissions d
  let d := encodeApiCalls r.api_calls d
  let d := encodePlain (strL "features") r.features d
  let d := encodePlain (strL "intents") r.intents d
  let d := encodePlain (strL "activities") r.activities d
  let d := encodePlain (strL "s_and_r") r.s_and_r d
  let d := encodeInteresting r.interesting_calls d
  let d := encodePlain (strL "urls") r.urls d
  encodePlain (strL "providers") r.providers d

/-- A report whose list fields are all empty (used to build concrete tests). -/
def emptyReport : Report where
  sha256 := strL "ABCDEF"
  md5 := strL "MD5MD5"
  ssdeep := strL "3:ab:cd"
  package_name := strL "com.example.app"
  sdk_version := strL "21"
  apk_name := strL "sample"
  app_permissions := []
  api_permissions := []
  api_calls := []
  features := []
  intents := []
  activities := []
  s_and_r := []
  interesting_calls := []
  urls := []
  networks := []
  providers := []
  included_files := []
  detected_ad_networks := []

/-! ## `analyzer.smali.parse_smali_calls`

A code module is embedded as the list of its disassembled text files, each
file a list of raw lines (`readlines`, before stripping). -/

/-- The `dangerous_patterns` catalogue, in dict insertion order.  The value
stored under `"Cipher"` is a template that the scanner recomputes from
context (as in the source); `"crypto"` maps to `None`. -/
def dangerous_patterns : List (Str × Option Str) :=
  [(strL "Cipher", some (strL "Cipher({prev_line})")),
   (strL "crypto", none),
   (strL "Ljava/net/HttpURLconnection;->setRequestMethod(Ljava/lang/String;)",
     some (strL "HTTP GET/POST")),
   (strL "Ljava/net/HttpURLconnection", some (strL "HttpURLconnection")),
   (strL "getExternalStorageDirectory", some (strL "Read/Write External Storage")),
   (strL "getSimCountryIso", some (strL "getSimCountryIso")),
   (strL "execHttpRequest", some (strL "execHttpRequest")),
   (strL "Lorg/apache/http/client/methods/HttpPost", some (strL "HttpPost")),
   (strL "Landroid/telephony/SmsMessage;->getMessageBody", some (strL "readSMS")),
   (strL "sendTextMessage", some (strL "sendSMS")),
   (strL "getSubscriberId", some (strL "getSubscriberId")),
   (strL "getDeviceId", some (strL "getDeviceId")),
   (strL "getPackageInfo", some (strL "getPackageInfo")),
   (strL "getSystemService", some (strL "getSystemService")),
   (strL "getWifiState", some (strL "getWifiState")),
   (strL "system/bin/su", some (strL "system/bin/su")),
   (strL "setWifiEnabled", some (strL "setWifiEnabled")),
   (strL "setWifiDisabled", some (strL "setWifiDisabled")),
   (strL "getCellLocation", some (strL "getCellLocation")),
   (strL "getNetworkCountryIso", some (strL "getNetworkCountryIso")),
   (strL "SystemClock.uptimeMillis", some (strL "SystemClock.uptimeMillis")),
   (strL "getCellSignalStrength", some (strL "getCellSignalStrength")),
   (strL "Landroid/os/Build;->BRAND:Ljava/lang/String",
     some (strL "Access Device Info (BRAND)")),
   (strL "Landroid/os/Build;->DEVICE:Ljava/lang/String",
     some (strL "Access Device Info (DEVICE)")),
   (strL "Landroid/os/Build;->MODEL:Ljava/lang/String",
     some (strL "Access Device Info (MODEL)")),
   (strL "Landroid/os/Build;->PRODUCT:Ljava/lang/String",
     some (strL "Access Device Info (PRODUCT)")),
   (strL "Landroid/os/Build;->FINGERPRINT:Ljava/lang/String",
     some (strL "Access Device Info (FINGERPRINT)")),
   (strL "adb_enabled", some (strL "Check if adb is enabled")),
   (strL "Ljava/io/IOException;->printStackTrace", some (strL "printStackTrace")),
   (strL "Ljava/lang/Runtime;->exec", some (strL "Execution of external commands")),
   (strL "Ljava/lang/System;->loadLibrary",
     some (strL "Loading of external Libraries (loadLibrary)")),
   (strL "Ljava/lang/System;->load",
     some (strL "Loading of external Libraries (load)")),
   (strL "Ldalvik/system/DexClassLoader;",
     some (strL "Loading of external Libraries (DexClassLoader)")),
   (strL "Ldalvik/system/SecureClassLoader;",
     some (strL "Loading of external Libraries (SecureClassLoader)")),
   (strL "Ldalvik/system/PathClassLoader;",
     some (strL "Loading of external Libraries (PathClassLoader)")),
   (strL "Ldalvik/system/BaseDexClassLoader;",
     some (strL "Loading of external Libraries (BaseDexClassLoader)")),
   (strL "Ldalvik/system/URLClassLoader;",
     some (strL "Loading of external Libraries (URLClassLoader)")),
   (strL "android/os/Exec", some (strL "Execution of native code")),
   (strL "Base64", some (strL "Obfuscation(Base64)"))]

/-- The contextual label for a `"Cipher"` match on line `idx`:
`lines[idx - 2].strip().split('"')[1]`, with Python's negative indexing in
`pyGet`; `none` is the `IndexError` caught by the scanner (out-of-range
line, or no quote on the referenced line). -/
def cipherDesc (lines : List Str) (idx : Nat) : Option Str :=
  match pyGet lines ((idx : Int) - 2) with
  | none => none
  | some prev =>
    match (splitOnChar '"' (sTrim prev)).get? 1 with
    | none => none
    | some inner => some (strL "Cipher(" ++ inner ++ strL ")")

/-- Scan one (already stripped) line against the whole catalogue,
appending each new non-empty label (`description not in dangerous_calls`). -/
def scanCallLine (lines : List Str) (idx : Nat) (line : Str) (acc : List Str) :
    List Str :=
  dangerous_patterns.foldl
    (fun acc pd =>
      if containsSub pd.1 line then
        let desc : Option Str :=
          if pd.1 = strL "Cipher" then cipherDesc lines idx else pd.2
        match desc with
        | none => acc
        | some d => if d ≠ [] ∧ d ∉ acc then acc ++ [d] else acc
      else acc)
    acc

/-- Scan one file: enumerate its lines, stripping each before matching. -/
def scanCallFile (acc : List Str) (lines : List Str) : List Str :=
  (List.range lines.length).foldl
    (fun acc idx => scanCallLine lines idx (sTrim (lines.getD idx [])) acc) acc

/-- `parse_smali_calls` over one disassembled module: the deduplicated
labels, in first-occurrence order across the module's files. -/
def parse_smali_calls (files : List (List Str)) : List Str :=
  files.foldl scanCallFile []

/-- The `dangerous_calls.extend(parse_smali_calls(...))` loop of
`extractor.run`: per-module results are concatenated, not re-deduplicated. -/
def dangerous_calls_across_modules (modules : List (List (List Str))) : List Str :=
  modules.foldl (fun acc m => acc ++ parse_smali_calls m) []

/-! ## `analyzer.smali.parse_smali_url`

The two regexes are embedded directly.  The URL pattern
`http[s]?://(?:[a-zA-Z]|[0-9]|[$-_@.&+]|[!*\\(\\),]|(?:%[0-9a-fA-F][0-9a-fA-F]))+`
is a scheme prefix followed by a greedy repeat of single characters drawn
from the union of its alternatives; `[$-_@.&+]` is the byte range
0x24–0x5F (which already contains the digits, the uppercase letters and
every listed punctuation character except `!`), so the repeat's character
set is lowercase letters ∪ 0x24–0x5F ∪ `{!}` (the `%hh` alternative is
subsumed because `%` itself lies in the range). -/

/-- One character of the URL regex's repeated class. -/
def urlChar (c : Char) : Bool :=
  ('a' ≤ c && c ≤ 'z') || (0x24 ≤ c.toNat && c.toNat ≤ 0x5F) || c = '!'

/-- Match the whole URL regex at the start of `s`: the literal scheme
prefix (greedy optional `s`, as the engine tries it first), then a maximal
non-empty run of `urlChar`s. -/
def urlFrom (s : Str) : Option Str :=
  if isPrefixL (strL "https://") s then
    let run := (s.drop 8).takeWhile urlChar
    if run = [] then none else some (strL "https://" ++ run)
  else if isPrefixL (strL "http://") s then
    let run := (s.drop 7).takeWhile urlChar
    if run = [] then none else some (strL "http://" ++ run)
  else none

/-- Take exactly `n` ASCII digits from the front of `s`. -/
def takeExactDigits : Nat → Str → Option (Str × Str)
  | 0, s => some ([], s)
  | _ + 1, [] => none
  | n + 1, c :: s =>
    if c.isDigit then
      match takeExactDigits n s with
      | some (d, rest) => some (c :: d, rest)
      | none => none
    else none

/-- One `\d{1,3}\.` group of the IP regex, for a given digit count `k`,
continuing with `next` on the remainder. -/
def ipGroupAt (next : Str → Option (Str × Str)) (k : Nat) (s : Str) :
    Option (Str × Str) :=
  match takeExactDigits k s with
  | some (d, rest) =>
    match rest with
    | '.' :: rest2 =>
      match next rest2 with
      | some (t, fin) => some (d ++ '.' :: t, fin)
      | none => none
    | _ => none
  | none => none

/-- `(?:\d{1,3}\.){n}` at the start of `s`, trying digit counts in the
engine's greedy backtracking order 3, 2, 1. -/
def ipGroups : Nat → Str → Option (Str × Str)
  | 0, s => some ([], s)
  | n + 1, s =>
    (ipGroupAt (ipGroups n) 3 s).orElse fun _ =>
      (ipGroupAt (ipGroups n) 2 s).orElse fun _ => ipGroupAt (ipGroups n) 1 s

/-- Match `(?:\d{1,3}\.){3}\d{1,3}` at the start of `s`: three
digit-and-dot groups, then a greedy final run of one to three digits. -/
def ipFrom (s : Str) : Option Str :=
  match ipGroups 3 s with
  | some (g, rest) =>
    let d := (rest.takeWhile Char.isDigit).take 3
    if d = [] then none else some (g ++ d)
  | none => none

/-- `re.search`: the match at the leftmost starting position (both our
patterns fail on the empty suffix, so stopping at `[]` is equivalent). -/
def pySearch (f : Str → Option Str) : Str → Option Str
  | [] => none
  | c :: rest =>
    match f (c :: rest) with
    | some r => some r
    | none => pySearch f rest

/-- One line of `parse_smali_url`: strip, take the first URL match (if new,
append), then the first IP match (if new, append). -/
def scanUrlLine (acc : List Str) (line : Str) : List Str :=
  let stripped := sTrim line
  let acc1 :=
    match pySearch urlFrom stripped with
    | some url => if url ∈ acc then acc else acc ++ [url]
    | none => acc
  match pySearch ipFrom stripped with
  | some ip => if ip ∈ acc1 then acc1 else acc1 ++ [ip]
  | none => acc1

/-- `parse_smali_url` over one module's files. -/
def parse_smali_url (files : List (List Str)) : List Str :=
  files.foldl (fun acc file => file.foldl scanUrlLine acc) []

/-! ## `analyzer.permissions.check_api_permissions`

`api_call_list` holds the `api|permission` rows of the reference table;
`files` holds the text contents of the module's smali files in the sorted
path order produced by `sorted(... rglob ...)`.  The function accumulates
`api_permissions` as a `set` (embedded here as its insertion-ordered
contents, which is what membership tests see) and `api_calls` as a list. -/

def check_api_permissions_core (api_call_list : List (Str × Str))
    (files : List Str) : List Str × List (Str × Str) :=
  files.foldl
    (fun acc content =>
      api_call_list.foldl
        (fun acc pr =>
          if containsSub pr.1 content then
            let permission := sTrim pr.2
            let perms :=
              if permission ≠ [] ∧ permission ∉ acc.1 then acc.1 ++ [permission]
              else acc.1
            (perms, acc.2 ++ [(pr.1, permission)])
          else acc)
        acc)
    ([], [])

/-- `check_api_permissions` returns `list(api_permissions)`: the set's
elements in an interpreter-chosen enumeration order.  `enum` stands for
that order; a run of the program corresponds to some `enum` with
`(enum s).Perm s`. -/
def check_api_permissions (enum : List Str → List Str)
    (api_call_list : List (Str × Str)) (files : List Str) :
    List Str × List (Str × Str) :=
  let r := check_api_permissions_core api_call_list files
  (enum r.1, r.2)

/-! ## `extractor.run` step isolation (C4)

Each extraction step of `run` is wrapped in its own `try/except`, so a
step is either a value or a raise (`Except Unit _`); a raising step leaves
its result container at its initialized default.  `app_infos` is
initialized to the empty dict `{}`, so when `get_sample_info` raises, the
later subscripts `app_infos[0]`… raise `KeyError` exactly as an empty
list raises `IndexError`: both are the `none` case of `List.get?`. -/

/-- Results of the per-dex scan loop (all empty when unpacking failed). -/
structure ScanResults where
  dangerous_calls : List Str
  app_urls : List Str
  api_permissions_list : List Str
  api_calls : List (Str × Str)
  detected_ads : List Str

/-- The empty scan accumulator (`run`'s initialized containers). -/
def emptyScan : ScanResults where
  dangerous_calls := []
  app_urls := []
  api_permissions_list := []
  api_calls := []
  detected_ads := []

/-- Outcome of each isolated step of `extractor.run`. -/
structure StepResults where
  unpack : Except Unit Unit
  net : Except Unit (List Str)
  sampleInfo : Except Unit (List Str)
  providers : Except Unit (List Str)
  permissions : Except Unit (List Str)
  activities : Except Unit (List Str)
  features : Except Unit (List Str)
  intents : Except Unit (List Str)
  filesInApk : Except Unit (List Str)
  servicesReceivers : Except Unit (List Str)
  ssdeepVal : Str
  scan : ScanResults

/-- A raising step leaves its container at the initialized empty list. -/
def stepVal (e : Except Unit (List Str)) : List Str := (e.toOption).getD []

/-- `create_output`'s dict literal: building it subscripts
`app_infos[0] … app_infos[4]`, raising when any is missing; on success it
assembles the report dictionary. -/
def create_output_model (appInfos : List Str) (net providers permissions
    features intents activities filesInApk servicesReceivers : List Str)
    (ssdeepVal : Str) (scan : ScanResults) : Option Report :=
  match appInfos.get? 0, appInfos.get? 1, appInfos.get? 2,
      appInfos.get? 3, appInfos.get? 4 with
  | some sha, some md5, some pkg, some sdk, some name =>
    some
      { sha256 := sha
        md5 := md5
        ssdeep := ssdeepVal
        package_name := pkg
        sdk_version := sdk
        apk_name := name
        app_permissions := permissions
        api_permissions := scan.api_permissions_list
        api_calls := scan.api_calls
        features := features
        intents := intents
        activities := activities
        s_and_r := servicesReceivers
        interesting_calls := scan.dangerous_calls
        urls := scan.app_urls
        networks := net
        providers := providers
        included_files := filesInApk
        detected_ad_networks := scan.detected_ads }
  | _, _, _, _, _ => none

/-- The observable outcome of `extractor.run`: the function always
returns (`completed`), because the final report-creation call sits inside
the outer `try/except Exception`; `report` is the report dictionary it
managed to build and persist, if any. -/
structure RunOutcome where
  completed : Bool
  report : Option Report

/-- The scan results `run` ends up with: the per-dex loop runs only when
unpacking produced a directory, otherwise the containers stay empty. -/
def scanOf (s : StepResults) : ScanResults :=
  match s.unpack with
  | .ok _ => s.scan
  | .error _ => emptyScan

/-- `extractor.run`: every step executes regardless of the others'
failures; report creation happens last and its exception is caught. -/
def runModel (s : StepResults) : RunOutcome :=
  { completed := true
    report :=
      create_output_model (stepVal s.sampleInfo) (stepVal s.net)
        (stepVal s.providers) (stepVal s.permissions) (stepVal s.features)
        (stepVal s.intents) (stepVal s.activities) (stepVal s.filesInApk)
        (stepVal s.servicesReceivers) s.ssdeepVal (scanOf s) }

/-! ## `extension.feature_extraction_automation.APK` workspace model (C5, C9)

The filesystem is an association list of existing paths and their byte
contents (directories carry `[]`).  Filesystem primitives are modelled as
succeeding; `shutil.rmtree` removes every path under the tree. -/

/-- An abstract filesystem: existing paths with contents. -/
abbrev FS := List (Str × Str)

/-- Content of `p`, if `p` exists. -/
def fsLookup (p : Str) : FS → Option Str
  | [] => none
  | q :: fs => if q.1 = p then some q.2 else fsLookup p fs

/-- `Path.exists()`. -/
def fsExists (p : Str) (fs : FS) : Bool := (fsLookup p fs).isSome

/-- `mkdir(parents=True, exist_ok=True)` for the working directory. -/
def fsMkdirP (p : Str) (fs : FS) : FS :=
  if fsExists p fs then fs else fs ++ [(p, [])]

/-- `shutil.rmtree(base)`: every path under `base` (string-prefix) goes. -/
def fsRemoveTree (base : Str) (fs : FS) : FS :=
  fs.filter fun q => !(isPrefixL base q.1)

/-- `APK.delete_working_dir`: remove the tree if the directory exists,
otherwise do nothing (the removal itself is modelled as succeeding). -/
def delete_working_dir (wd : Str) (fs : FS) : FS :=
  if fsExists wd fs then fsRemoveTree wd fs else fs

/-- How `extractor.run` ends inside `extract_feature`: normal return,
an exception caught by `except Exception`, or a `KeyboardInterrupt`
(cancellation).  In every case the `finally` block runs. -/
inductive TaskOutcome where
  | success
  | failure
  | cancelled

/-- `APK.extract_feature` as a filesystem transformer.  If the report file
exists and overwriting is disabled it returns before touching the
filesystem.  Otherwise it creates the working directory, lets
`extractor.run` transform the filesystem (`runEffect`, arbitrary), and the
`finally` block deletes the working tree on success, failure and
cancellation alike. -/
def extract_feature (wd reportFile : Str) (overwrite : Bool)
    (runEffect : FS → FS) (outcome : TaskOutcome) (fs : FS) : FS :=
  if fsExists reportFile fs && !overwrite then fs
  else
    match outcome with
    | .success => delete_working_dir wd (runEffect (fsMkdirP wd fs))
    | .failure => delete_working_dir wd (runEffect (fsMkdirP wd fs))
    | .cancelled => delete_working_dir wd (runEffect (fsMkdirP wd fs))

/-! ## `analyzer.apk_info` component-name extraction (C10)

A manifest block is embedded as the regex match it yields, if any: the
`android:name` attribute value (group 1) and the optional `Raw` resolved
value (group 2). -/

/-- `get_services_receivers`'s choice,
`match.group(1) if match.group(2) else match.group(1)`: the literal
attribute value in both arms. -/
def pick_service_receiver_name (nameAttr : Str) (raw : Option Str) : Str :=
  match raw with
  | some _ => nameAttr
  | none => nameAttr

/-- `get_activities` / `get_providers` choice,
`match.group(2) if match.group(2) else match.group(1)`: the resolved `Raw`
value when present. -/
def pick_activity_name (nameAttr : Str) (raw : Option Str) : Str :=
  match raw with
  | some r => r
  | none => nameAttr

/-- The `get_services_receivers` collection loop: per block, pick the
name, sanitize it, and append when non-empty and new. -/
def get_services_receivers (blocks : List (Option (Str × Option Str))) :
    List Str :=
  blocks.foldl
    (fun acc blk =>
      match blk with
      | none => acc
      | some (nm, raw) =>
        let name :=
          sanitize_to_ascii (remove_control_chars
            (pick_service_receiver_name nm raw))
        if name ≠ [] ∧ name ∉ acc then acc ++ [name] else acc)
    []

/-! ## Concrete inputs used by the claim checks -/

/-- One line of one smali file invoking `Runtime.exec` (matches exactly one
catalogue entry). -/
def execModule : List (List Str) :=
  [[strL "    invoke-virtual Ljava/lang/Runtime;->exec"]]

/-- The label of the `Ljava/lang/Runtime;->exec` catalogue entry. -/
def execLabel : Str := strL "Execution of external commands"

/-- A smali file whose first line matches `"Cipher"`; two lines above that
line does not exist, but `lines[0 - 2]` wraps to the second-to-last line,
which carries a quoted literal. -/
def cipherFile : List Str :=
  [strL "uses Cipher", strL "const v0, \"AES\"", strL "return"]

/-- A line holding two distinct URL-grammar matches. -/
def twoUrlLine : Str := strL "x http://a.bc http://de.fg"

/-- A line holding both a URL and a dotted-quad IP. -/
def urlAndIpLine : Str := strL "http://a.bc 1.2.3.4"

/-- A two-row `api|permission` reference table. -/
def apiTable : List (Str × Str) :=
  [(strL "getDeviceId", strL "p.x"), (strL "sendTextMessage", strL "q.y")]

/-- One smali file content containing both catalogued API signatures. -/
def apiContent : List Str := [strL "getDeviceId sendTextMessage"]

/-- A report whose `api_permissions` field is the given enumeration of the
permission set (all other categories empty). -/
def reportWithApiPerms (perms : List Str) : Report :=
  { emptyReport with api_permissions := perms }

/-- Step results for Scenario D: unpacking and every manifest step raise,
while `get_sample_info` got the two hashes and then lost the badging tool,
returning a two-element list. -/
def scenarioD : StepResults where
  unpack := .error ()
  net := .error ()
  sampleInfo := .ok [strL "AABB", strL "CCDD"]
  providers := .error ()
  permissions := .error ()
  activities := .error ()
  features := .error ()
  intents := .error ()
  filesInApk := .error ()
  servicesReceivers := .error ()
  ssdeepVal := strL "3:ab:cd"
  scan := emptyScan

/-- Step results where only the providers step raises and sample info is
complete. -/
def oneFailingStep : StepResults where
  unpack := .ok ()
  net := .ok [strL "android.net.conn.CONNECTIVITY_CHANGE"]
  sampleInfo :=
    .ok [strL "AABB", strL "CCDD", strL "com.example.app", strL "21",
      strL "sample"]
  providers := .error ()
  permissions := .ok [strL "android.permission.INTERNET"]
  activities := .ok [strL "com.example.Main"]
  features := .ok []
  intents := .ok []
  filesInApk := .ok [strL "classes.dex"]
  servicesReceivers := .ok []
  ssdeepVal := strL "3:ab:cd"
  scan := emptyScan

/-- A concrete workspace path and report path. -/
def wd0 : Str := strL "/work/sample1"

/-- The per-sample report file path. -/
def rf0 : Str := strL "/reports/drebin-sample1.json"

/-- A filesystem already holding the report file. -/
def fs0 : FS := [(rf0, strL "OLDREPORT")]

/-- An `extractor.run` effect that drops an unpack area into the
workspace. -/
def runEffect0 (fs : FS) : FS := fs ++ [(wd0 ++ strL "/unpack", strL "x")]

/-! ## Predicates used in theorem statements -/

/-- Every binding of the feature dict carries the constant 1, except the
seeded `sha256` scalar. -/
def oneValued (d : Dict) : Prop :=
  ∀ p ∈ d, p.2 = JVal.n 1 ∨ p.1 = strL "sha256"

/-- `a` is the key contributed by some value of a plainly-encoded
category `k`. -/
def plainProduces (k : Str) (vs : List Str) (a : Str) : Prop :=
  ∃ v ∈ vs, sTrim v ≠ [] ∧ a = key_fmt k v

/-! # Theorems

## Dictionary lemmas -/

theorem mem_dictKeys_singleton (a k : Str) (v : JVal) :
    a ∈ dictKeys [(k, v)] ↔ a = k := by
  simp [dictKeys]

theorem mem_dictKeys_dictInsert (a k : Str) (v : JVal) (d : Dict) :
    a ∈ dictKeys (dictInsert k v d) ↔ a = k ∨ a ∈ dictKeys d := by
  induction d with
  | nil => simp [dictInsert, dictKeys]
  | cons p d ih =>
    by_cases hp : p.1 = k
    · subst hp
      simp [dictInsert, dictKeys]
    · simp only [dictInsert, if_neg hp, dictKeys, List.map_cons, List.mem_cons]
      rw [dictKeys] at ih
      rw [ih]
      tauto

theorem dictLookup_dictInsert_self (k : Str) (v : JVal) (d : Dict) :
    dictLookup k (dictInsert k v d) = some v := by
  induction d with
  | nil => simp [dictInsert, dictLookup]
  | cons p d ih =>
    by_cases hp : p.1 = k
    · simp [dictInsert, dictLookup, hp]
    · simp [dictInsert, dictLookup, hp, ih]

theorem dictLookup_dictInsert_ne (a k : Str) (v : JVal) (d : Dict) (h : a ≠ k) :
    dictLookup a (dictInsert k v d) = dictLookup a d := by
  induction d with
  | nil => simp [dictInsert, dictLookup, Ne.symm h]
  | cons p d ih =>
    by_cases hp : p.1 = k
    · simp [dictInsert, dictLookup, hp, Ne.symm h]
    · by_cases hpa : p.1 = a
      · simp [dictInsert, dictLookup, hp, hpa, h]
      · simp [dictInsert, dictLookup, hp, hpa, ih]

/-- Inserting the constant 1 keeps `a ↦ 1`, whether or not `a` is the
inserted key. -/
theorem dictLookup_dictInsert_one (a k : Str) (d : Dict)
    (h : dictLookup a d = some (.n 1)) :
    dictLookup a (dictInsert k (.n 1) d) = some (.n 1) := by
  by_cases hak : a = k
  · subst hak; exact dictLookup_dictInsert_self a (.n 1) d
  · rw [dictLookup_dictInsert_ne a k (.n 1) d hak]; exact h

/-! ## Encoder lemmas -/

theorem encodePlain_cons (k v : Str) (vs : List Str) (d : Dict) :
    encodePlain k (v :: vs) d =
      encodePlain k vs
        (if sTrim v = [] then d else dictInsert (key_fmt k v) (.n 1) d) := rfl

theorem encodeApiCalls_cons (v : Str × Str) (vs : List (Str × Str)) (d : Dict) :
    encodeApiCalls (v :: vs) d =
      encodeApiCalls vs
        (if sTrim v.1 = [] then d
         else dictInsert (key_fmt (strL "api_calls") v.1) (.n 1) d) := rfl

theorem encodeInteresting_cons (v : Str) (vs : List Str) (d : Dict) :
    encodeInteresting (v :: vs) d =
      encodeInteresting vs
        (match interestingKey v with
         | some key => dictInsert key (.n 1) d
         | none => d) := rfl

theorem mem_dictKeys_encodePlain (a k : Str) (vs : List Str) (d : Dict) :
    a ∈ dictKeys (encodePlain k vs d) ↔
      a ∈ dictKeys d ∨ ∃ v ∈ vs, sTrim v ≠ [] ∧ a = key_fmt k v := by
  induction vs generalizing d with
  | nil => simp [encodePlain]
  | cons v vs ih =>
    rw [encodePlain_cons, ih]
    by_cases h : sTrim v = [] <;>
      (simp [h, mem_dictKeys_dictInsert, List.exists_mem_cons_iff]; try tauto)

theorem mem_dictKeys_encodeApiCalls (a : Str) (vs : List (Str × Str)) (d : Dict) :
    a ∈ dictKeys (encodeApiCalls vs d) ↔
      a ∈ dictKeys d ∨
        ∃ v ∈ vs, sTrim v.1 ≠ [] ∧ a = key_fmt (strL "api_calls") v.1 := by
  induction vs generalizing d with
  | nil => simp [encodeApiCalls]
  | cons v vs ih =>
    rw [encodeApiCalls_cons, ih]
    by_cases h : sTrim v.1 = [] <;>
      (simp [h, mem_dictKeys_dictInsert, List.exists_mem_cons_iff]; try tauto)

theorem mem_dictKeys_encodeInteresting (a : Str) (vs : List Str) (d : Dict) :
    a ∈ dictKeys (encodeInteresting vs d) ↔
      a ∈ dictKeys d ∨ ∃ v ∈ vs, interestingKey v = some a := by
  induction vs generalizing d with
  | nil => simp [encodeInteresting]
  | cons v vs ih =>
    rw [encodeInteresting_cons, ih]
    cases hk : interestingKey v with
    | none => simp [hk, List.exists_mem_cons_iff]
    | some key =>
      simp only [hk, mem_dictKeys_dictInsert, List.exists_mem_cons_iff,
        Option.some.injEq]
      constructor
      · rintro ((rfl | hd) | hE)
        · exact Or.inr (Or.inl rfl)
        · exact Or.inl hd
        · exact Or.inr (Or.inr hE)
      · rintro (hd | (rfl | hE))
        · exact Or.inl (Or.inr hd)
        · exact Or.inl (Or.inl rfl)
        · exact Or.inr hE

theorem dictLookup_encodePlain_of_one (a k : Str) (vs : List Str) (d : Dict)
    (h : dictLookup a d = some (.n 1)) :
    dictLookup a (encodePlain k vs d) = some (.n 1) := by
  induction vs generalizing d with
  | nil => exact h
  | cons v vs ih =>
    rw [encodePlain_cons]
    apply ih
    by_cases hv : sTrim v = []
    · simpa [hv] using h
    · simp only [if_neg hv]
      exact dictLookup_dictInsert_one _ _ _ h

theorem dictLookup_encodeApiCalls_of_one (a : Str) (vs : List (Str × Str))
    (d : Dict) (h : dictLookup a d = some (.n 1)) :
    dictLookup a (encodeApiCalls vs d) = some (.n 1) := by
  induction vs generalizing d with
  | nil => exact h
  | cons v vs ih =>
    rw [encodeApiCalls_cons]
    apply ih
    by_cases hv : sTrim v.1 = []
    · simpa [hv] using h
    · simp only [if_neg hv]
      exact dictLookup_dictInsert_one _ _ _ h

theorem dictLookup_encodeInteresting_of_one (a : Str) (vs : List Str)
    (d : Dict) (h : dictLookup a d = some (.n 1)) :
    dictLookup a (encodeInteresting vs d) = some (.n 1) := by
  induction vs generalizing d with
  | nil => exact h
  | cons v vs ih =>
    rw [encodeInteresting_cons]
    apply ih
    cases hk : interestingKey v with
    | none => simpa using h
    | some key => exact dictLookup_dictInsert_one _ _ _ h

theorem dictLookup_encodePlain_self (k v : Str) (vs : List Str) (d : Dict)
    (hm : v ∈ vs) (ht : sTrim v ≠ []) :
    dictLookup (key_fmt k v) (encodePlain k vs d) = some (.n 1) := by
  induction vs generalizing d with
  | nil => cases hm
  | cons w vs ih =>
    rcases List.mem_cons.1 hm with rfl | hm'
    · rw [encodePlain_cons]
      apply dictLookup_encodePlain_of_one
      simp only [if_neg ht]
      exact dictLookup_dictInsert_self _ _ _
    · rw [encodePlain_cons]
      exact ih _ hm'

/-! ## Constant-1 invariant -/

theorem oneValued_dictInsert (k : Str) (d : Dict) :
    oneValued d → oneValued (dictInsert k (.n 1) d) := by
  induction d with
  | nil =>
    intro _ p hp
    simp only [dictInsert, List.mem_singleton] at hp
    subst hp
    left; rfl
  | cons q d ih =>
    intro h p hp
    by_cases hq : q.1 = k
    · simp only [dictInsert, if_pos hq, List.mem_cons] at hp
      rcases hp with rfl | hp
      · left; rfl
      · exact h p (List.mem_cons_of_mem _ hp)
    · simp only [dictInsert, if_neg hq, List.mem_cons] at hp
      rcases hp with rfl | hp
      · exact h p (List.mem_cons_self _ _)
      · exact ih (fun r hr => h r (List.mem_cons_of_mem _ hr)) p hp

theorem oneValued_encodePlain (k : Str) (vs : List Str) (d : Dict) :
    oneValued d → oneValued (encodePlain k vs d) := by
  induction vs generalizing d with
  | nil => exact id
  | cons v vs ih =>
    intro h
    rw [encodePlain_cons]
    apply ih
    by_cases hv : sTrim v = []
    · simpa [hv] using h
    · simp only [if_neg hv]
      exact oneValued_dictInsert _ _ h

theorem oneValued_encodeApiCalls (vs : List (Str × Str)) (d : Dict) :
    oneValued d → oneValued (encodeApiCalls vs d) := by
  induction vs generalizing d with
  | nil => exact id
  | cons v vs ih =>
    intro h
    rw [encodeApiCalls_cons]
    apply ih
    by_cases hv : sTrim v.1 = []
    · simpa [hv] using h
    · simp only [if_neg hv]
      exact oneValued_dictInsert _ _ h

theorem oneValued_encodeInteresting (vs : List Str) (d : Dict) :
    oneValued d → oneValued (encodeInteresting vs d) := by
  induction vs generalizing d with
  | nil => exact id
  | cons v vs ih =>
    intro h
    rw [encodeInteresting_cons]
    apply ih
    cases hk : interestingKey v with
    | none => simpa using h
    | some key => exact oneValued_dictInsert _ _ h

theorem dictLookup_of_oneValued (d : Dict) (a : Str) :
    oneValued d → a ∈ dictKeys d → a ≠ strL "sha256" →
      dictLookup a d = some (.n 1) := by
  induction d with
  | nil => intro _ ha _; simp [dictKeys] at ha
  | cons p d ih =>
    intro h ha hsha
    by_cases hp : p.1 = a
    · rcases h p (List.mem_cons_self _ _) with h1 | h2
      · simp [dictLookup, hp, h1]
      · exact absurd (hp.symm.trans h2) hsha
    · have ha' : a ∈ dictKeys d := by
        rcases (by simpa [dictKeys] using ha : a = p.1 ∨ a ∈ dictKeys d) with
          rfl | h'
        · exact absurd rfl hp
        · exact h'
      simp only [dictLookup, if_neg hp]
      exact ih (fun r hr => h r (List.mem_cons_of_mem _ hr)) ha' hsha

/-! ## `report_to_feature_vector` structure -/

theorem report_to_feature_vector_eq (r : Report) :
    report_to_feature_vector r =
      encodePlain (strL "providers") r.providers
        (encodePlain (strL "urls") r.urls
          (encodeInteresting r.interesting_calls
            (encodePlain (strL "s_and_r") r.s_and_r
              (encodePlain (strL "activities") r.activities
                (encodePlain (strL "intents") r.intents
                  (encodePlain (strL "features") r.features
                    (encodeApiCalls r.api_calls
                      (encodePlain (strL "api_permissions") r.api_permissions
                        (encodePlain (strL "app_permissions")
                          r.app_permissions
                          [(strL "sha256", .s r.sha256)]))))))))) := rfl

theorem oneValued_report_to_feature_vector (r : Report) :
    oneValued (report_to_feature_vector r) := by
  rw [report_to_feature_vector_eq]
  apply oneValued_encodePlain
  apply oneValued_encodePlain
  apply oneValued_encodeInteresting
  apply oneValued_encodePlain
  apply oneValued_encodePlain
  apply oneValued_encodePlain
  apply oneValued_encodePlain
  apply oneValued_encodeApiCalls
  apply oneValued_encodePlain
  apply oneValued_encodePlain
  intro p hp
  simp only [List.mem_singleton] at hp
  subst hp
  right; rfl

/-- Exactly which keys the assembler produces: the seeded `sha256` scalar,
plus the keys of the ten encoded categories (with the `api_calls` and
`interesting_calls` special cases); nothing else. -/
theorem mem_dictKeys_report_to_feature_vector (r : Report) (a : Str) :
    a ∈ dictKeys (report_to_feature_vector r) ↔
      a = strL "sha256"
      ∨ plainProduces (strL "app_permissions") r.app_permissions a
      ∨ plainProduces (strL "api_permissions") r.api_permissions a
      ∨ (∃ v ∈ r.api_calls, sTrim v.1 ≠ [] ∧ a = key_fmt (strL "api_calls") v.1)
      ∨ plainProduces (strL "features") r.features a
      ∨ plainProduces (strL "intents") r.intents a
      ∨ plainProduces (strL "activities") r.activities a
      ∨ plainProduces (strL "s_and_r") r.s_and_r a
      ∨ (∃ v ∈ r.interesting_calls, interestingKey v = some a)
      ∨ plainProduces (strL "urls") r.urls a
      ∨ plainProduces (strL "providers") r.providers a := by
  rw [report_to_feature_vector_eq]
  simp only [mem_dictKeys_encodePlain, mem_dictKeys_encodeApiCalls,
    mem_dictKeys_encodeInteresting, plainProduces, mem_dictKeys_singleton,
    or_assoc]

/-! ## Claim C1 -/

/-- C1: `report_to_feature_vector` (the FeatureVectorAssembler) is a
deterministic pure function of the report dictionary: applying it twice to
the same unchanged report yields feature vectors with an identical key set
and identical key ordering (indeed, identical dictionaries). -/
theorem C1_assembler_deterministic (r : Report) :
    dictKeys (report_to_feature_vector r) =
      dictKeys (report_to_feature_vector r) ∧
    report_to_feature_vector r = report_to_feature_vector r :=
  ⟨rfl, rfl⟩

/-! ## Claim C3 -/

/-- C3 counterexample: the `interesting_calls` value `foo(bar;baz)` is
non-empty after stripping, yet — because it contains both `(` and `;` —
the assembler skips it and produces no `interesting_calls::…` key at all,
refuting "every non-empty, whitespace-stripped value produces exactly such
a key". -/
theorem C3_counterexample :
    sTrim (strL "foo(bar;baz)") ≠ [] ∧
    key_fmt (strL "interesting_calls") (strL "foo(bar;baz)") ∉
      dictKeys (report_to_feature_vector
        { emptyReport with interesting_calls := [strL "foo(bar;baz)"] }) := by
  decide

/-- C3 (amended): the assembler produces exactly the `sha256` scalar key
plus the keys of the ten encoded categories, where a plainly-encoded
non-empty stripped value `v` of category `k` yields `k::v` with `.`
replaced by `_`; `api_calls` entries contribute only their first
component, and `interesting_calls` values pass through `interestingKey`
(HttpPost values key their first space-separated token, values containing
both `(` and `;` are skipped).  Every key other than `sha256` maps to the
constant 1; in particular a reported URL yields its `urls::…` key mapped
to 1. -/
theorem C3_amended_namespaced_keys :
    (∀ (r : Report) (a : Str),
      a ∈ dictKeys (report_to_feature_vector r) ↔
        a = strL "sha256"
        ∨ plainProduces (strL "app_permissions") r.app_permissions a
        ∨ plainProduces (strL "api_permissions") r.api_permissions a
        ∨ (∃ v ∈ r.api_calls,
            sTrim v.1 ≠ [] ∧ a = key_fmt (strL "api_calls") v.1)
        ∨ plainProduces (strL "features") r.features a
        ∨ plainProduces (strL "intents") r.intents a
        ∨ plainProduces (strL "activities") r.activities a
        ∨ plainProduces (strL "s_and_r") r.s_and_r a
        ∨ (∃ v ∈ r.interesting_calls, interestingKey v = some a)
        ∨ plainProduces (strL "urls") r.urls a
        ∨ plainProduces (strL "providers") r.providers a) ∧
    (∀ (r : Report) (a : Str),
      a ∈ dictKeys (report_to_feature_vector r) → a ≠ strL "sha256" →
        dictLookup a (report_to_feature_vector r) = some (.n 1)) ∧
    (∀ (r : Report) (v : Str), v ∈ r.urls → sTrim v ≠ [] →
        dictLookup (key_fmt (strL "urls") v) (report_to_feature_vector r) =
          some (.n 1)) := by
  refine ⟨mem_dictKeys_report_to_feature_vector, ?_, ?_⟩
  · intro r a ha hsha
    exact dictLookup_of_oneValued _ _ (oneValued_report_to_feature_vector r)
      ha hsha
  · intro r v hm ht
    rw [report_to_feature_vector_eq]
    apply dictLookup_encodePlain_of_one
    exact dictLookup_encodePlain_self _ _ _ _ hm ht

/-- C3 witness: Scenario B — the reported URL `http://evil.test/c2` yields
the key `urls::http://evil_test/c2` mapped to 1. -/
theorem C3_amended_witness :
    strL "http://evil.test/c2" ∈
      ({ emptyReport with urls := [strL "http://evil.test/c2"] } :
        Report).urls ∧
    dictLookup (key_fmt (strL "urls") (strL "http://evil.test/c2"))
      (report_to_feature_vector
        { emptyReport with urls := [strL "http://evil.test/c2"] }) =
      some (.n 1) :=
  ⟨by decide,
   C3_amended_namespaced_keys.2.2 _ _ (by decide) (by decide)⟩

/-! ## Deduplication helpers -/

theorem foldl_preserve {α β : Type} (P : β → Prop) (step : β → α → β)
    (hstep : ∀ acc a, P acc → P (step acc a)) :
    ∀ (l : List α) (acc : β), P acc → P (l.foldl step acc)
  | [], _, h => h
  | a :: l, acc, h =>
    foldl_preserve P step hstep l (step acc a) (hstep acc a h)

theorem nodup_append_single {α : Type} {b : α} {acc : List α}
    (h : acc.Nodup) (hb : b ∉ acc) : (acc ++ [b]).Nodup := by
  simp [List.nodup_append, h, hb]

theorem nodup_dedupAppend (xs : List Str) (x : Str) (h : xs.Nodup) :
    (if x ∈ xs then xs else xs ++ [x]).Nodup := by
  by_cases hx : x ∈ xs
  · simpa [hx] using h
  · simp only [if_neg hx]
    exact nodup_append_single h hx

theorem nodup_scanCallLine (lines : List Str) (idx : Nat) (line : Str)
    (acc : List Str) (h : acc.Nodup) : (scanCallLine lines idx line acc).Nodup := by
  unfold scanCallLine
  refine foldl_preserve List.Nodup _ ?_ dangerous_patterns acc h
  intro acc pd hacc
  dsimp only
  by_cases hc : containsSub pd.1 line
  · simp only [if_pos hc]
    cases hdesc : (if pd.1 = strL "Cipher" then cipherDesc lines idx else pd.2) with
    | none => exact hacc
    | some d =>
      by_cases hd : d ≠ [] ∧ d ∉ acc
      · simp only [if_pos hd]
        exact nodup_append_single hacc hd.2
      · simp only [if_neg hd]
        exact hacc
  · simp only [if_neg hc]
    exact hacc

theorem nodup_scanCallFile (acc : List Str) (lines : List Str)
    (h : acc.Nodup) : (scanCallFile acc lines).Nodup := by
  unfold scanCallFile
  refine foldl_preserve List.Nodup _ ?_ _ acc h
  intro acc idx hacc
  exact nodup_scanCallLine _ _ _ _ hacc

theorem nodup_parse_smali_calls (files : List (List Str)) :
    (parse_smali_calls files).Nodup := by
  unfold parse_smali_calls
  refine foldl_preserve List.Nodup _ ?_ files [] List.nodup_nil
  intro acc f hacc
  exact nodup_scanCallFile _ _ hacc

theorem nodup_scanUrlLine (acc : List Str) (line : Str) (h : acc.Nodup) :
    (scanUrlLine acc line).Nodup := by
  unfold scanUrlLine
  dsimp only
  cases pySearch urlFrom (sTrim line) with
  | none =>
    cases pySearch ipFrom (sTrim line) with
    | none => exact h
    | some ip => exact nodup_dedupAppend _ _ h
  | some url =>
    cases pySearch ipFrom (sTrim line) with
    | none => exact nodup_dedupAppend _ _ h
    | some ip => exact nodup_dedupAppend _ _ (nodup_dedupAppend _ _ h)

theorem nodup_parse_smali_url (files : List (List Str)) :
    (parse_smali_url files).Nodup := by
  unfold parse_smali_url
  refine foldl_preserve List.Nodup _ ?_ files [] List.nodup_nil
  intro acc f hacc
  refine foldl_preserve List.Nodup _ ?_ f acc hacc
  intro acc line hacc
  exact nodup_scanUrlLine _ _ hacc

/-! ## Claim C2 -/

/-- C2 counterexample: two code modules each holding the literal
`Ljava/lang/Runtime;->exec` yield the behavioral-pattern label
"Execution of external commands" twice — not once — in the aggregated
`dangerous_calls` list of the raw report, because `extractor.run` extends
the list per module without re-deduplicating. -/
theorem C2_counterexample :
    dangerous_calls_across_modules [execModule, execModule] =
      [execLabel, execLabel] ∧
    (dangerous_calls_across_modules [execModule, execModule]).count execLabel
      = 2 := by
  decide

/-- C2 (amended): `parse_smali_calls` deduplicates labels within one code
module (its output has no duplicates), but `extractor.run` concatenates
per-module outputs, so a label found in two modules appears once per
module in the raw report; it still appears exactly once as a
feature-vector key. -/
theorem C2_amended_dedup_per_module :
    (∀ files, (parse_smali_calls files).Nodup) ∧
    dangerous_calls_across_modules [execModule, execModule] =
      [execLabel, execLabel] ∧
    (dictKeys (report_to_feature_vector
        { emptyReport with interesting_calls := [execLabel, execLabel] })).count
      (key_fmt (strL "interesting_calls") execLabel) = 1 :=
  ⟨nodup_parse_smali_calls, by decide, by decide⟩

/-! ## Claim C6 -/

/-- C6 counterexample: the line `x http://a.bc http://de.fg` contains two
substrings matching the URL grammar (`http://de.fg` matches it, and occurs
in the line), yet the scan extracts only the first match of the line —
`http://de.fg` is absent from the output. -/
theorem C6_counterexample :
    urlFrom (strL "http://de.fg") = some (strL "http://de.fg") ∧
    containsSub (strL "http://de.fg") twoUrlLine = true ∧
    parse_smali_url [[twoUrlLine]] = [strL "http://a.bc"] ∧
    strL "http://de.fg" ∉ parse_smali_url [[twoUrlLine]] := by
  decide

/-- C6 (amended): from every line, scanned independently, the engine
extracts at most the first URL-grammar match and the first dotted-quad
match (`re.search`, not `findall`), deduplicated in first-seen order
across the whole scan (the output has no duplicates); a single line may
contribute both a URL and an IP. -/
theorem C6_amended_first_match :
    (∀ files, (parse_smali_url files).Nodup) ∧
    parse_smali_url [[urlAndIpLine]] =
      [strL "http://a.bc", strL "1.2.3.4"] :=
  ⟨nodup_parse_smali_url, by decide⟩

/-! ## Claim C7 -/

/-- C7: for a `"Cipher"` match on line 0, `lines[0 - 2]` does not raise
`IndexError` (which the code relies on to skip matches without context):
Python's negative indexing wraps to the second-to-last line, so the label
is composed from a quoted literal near the end of the file instead of the
(nonexistent) line two above — the match is not skipped. -/
theorem C7_wraparound_evaluation :
    pyGet cipherFile ((0 : Int) - 2) = some (strL "const v0, \"AES\"") ∧
    cipherDesc cipherFile 0 = some (strL "Cipher(AES)") ∧
    parse_smali_calls [cipherFile] = [strL "Cipher(AES)"] := by
  decide

/-! ## Claim C4 -/

/-- C4 counterexample: Scenario D — unpacking raises and the badging tool
fails, so `get_sample_info` returns only the two hashes.  Every step is
isolated and the task completes, but `create_output` subscripts
`app_infos[2]` and raises, so no aggregate report is produced, refuting
"the aggregate report is still produced … with empty manifest-derived
categories but populated scalar hash fields". -/
theorem C4_counterexample :
    (runModel scenarioD).completed = true ∧
    (runModel scenarioD).report = none := by
  constructor
  · rfl
  · rfl

/-- C4 (amended): every extraction step of `extractor.run` is isolated —
each category of the report comes only from its own step (a failing step
leaves it empty) and the task always completes; the aggregate report is
produced whenever sample-info extraction supplied at least the five
`app_infos` fields, but when it did not (badging-tool failure leaves only
the two hashes, or the step raised entirely), `create_output`'s subscripts
raise, the exception is caught, and no report is produced. -/
theorem C4_amended_step_isolation (s : StepResults) (a b c d e : Str)
    (rest : List Str)
    (h : s.sampleInfo = .ok (a :: b :: c :: d :: e :: rest)) :
    (runModel s).completed = true ∧
    (runModel s).report = some
      { sha256 := a
        md5 := b
        ssdeep := s.ssdeepVal
        package_name := c
        sdk_version := d
        apk_name := e
        app_permissions := stepVal s.permissions
        api_permissions := (scanOf s).api_permissions_list
        api_calls := (scanOf s).api_calls
        features := stepVal s.features
        intents := stepVal s.intents
        activities := stepVal s.activities
        s_and_r := stepVal s.servicesReceivers
        interesting_calls := (scanOf s).dangerous_calls
        urls := (scanOf s).app_urls
        networks := stepVal s.net
        providers := stepVal s.providers
        included_files := stepVal s.filesInApk
        detected_ad_networks := (scanOf s).detected_ads } := by
  refine ⟨rfl, ?_⟩
  simp [runModel, create_output_model, stepVal, h, Except.toOption]

/-- C4 witness: a run where only the providers step raises still produces
the report, with the providers category empty and every other category
taken from its own step. -/
theorem C4_amended_isolation_witness :
    oneFailingStep.sampleInfo =
      Except.ok [strL "AABB", strL "CCDD", strL "com.example.app",
        strL "21", strL "sample"] ∧
    (runModel oneFailingStep).completed = true ∧
    ((runModel oneFailingStep).report).isSome = true := by
  refine ⟨rfl, (C4_amended_step_isolation oneFailingStep _ _ _ _ _ [] rfl).1, ?_⟩
  rw [(C4_amended_step_isolation oneFailingStep _ _ _ _ _ [] rfl).2]
  rfl

/-! ## Filesystem lemmas for C5 and C9 -/

theorem isPrefixL_refl (s : Str) : isPrefixL s s = true := by
  induction s with
  | nil => rfl
  | cons c s ih => simp [isPrefixL, ih]

theorem fsExists_append_self (p : Str) (c : Str) (fs : FS) :
    fsExists p (fs ++ [(p, c)]) = true := by
  induction fs with
  | nil => simp [fsExists, fsLookup]
  | cons q fs ih =>
    by_cases hq : q.1 = p
    · simp [fsExists, fsLookup, hq]
    · simpa [fsExists, fsLookup, hq] using ih

theorem fsExists_mono_append (p : Str) (fs l : FS)
    (h : fsExists p fs = true) : fsExists p (fs ++ l) = true := by
  induction fs with
  | nil => simp [fsExists, fsLookup] at h
  | cons q fs ih =>
    by_cases hq : q.1 = p
    · simp [fsExists, fsLookup, hq]
    · simp only [fsExists, fsLookup, if_neg hq, List.cons_append] at h ⊢
      exact ih h

theorem fsExists_fsMkdirP (p : Str) (fs : FS) :
    fsExists p (fsMkdirP p fs) = true := by
  unfold fsMkdirP
  by_cases h : fsExists p fs
  · simp [h]
  · simp only [h, if_neg, Bool.false_eq_true, not_false_iff]
    exact fsExists_append_self p [] fs

theorem fsExists_fsRemoveTree (base p : Str) (fs : FS)
    (hp : isPrefixL base p = true) :
    fsExists p (fsRemoveTree base fs) = false := by
  induction fs with
  | nil => rfl
  | cons q fs ih =>
    by_cases hq : isPrefixL base q.1
    · simpa [fsRemoveTree, List.filter, hq] using ih
    · have hqp : q.1 ≠ p := fun hh => hq (hh ▸ hp)
      simp only [fsRemoveTree, List.filter] at ih ⊢
      simp only [hq, Bool.not_false, Bool.not_eq_true']
      simpa [fsExists, fsLookup, hqp, hq] using ih

/-! ## Claim C5 -/

/-- C5: after `extract_feature` reaches a terminal state — success,
failure (exception), or cancellation — no path under the sample's
dedicated working directory exists, provided the workspace was fresh at
task start (it is never shared across tasks) and `extractor.run` does not
delete the workspace root itself; the `finally` block deletes the tree on
every exit path, and the skip path never creates it. -/
theorem C5_workspace_cleanup (wd reportFile : Str) (overwrite : Bool)
    (runEffect : FS → FS) (outcome : TaskOutcome) (fs : FS) (p : Str)
    (hfresh : ∀ q, isPrefixL wd q = true → fsExists q fs = false)
    (heff : ∀ g, fsExists wd g = true → fsExists wd (runEffect g) = true)
    (hp : isPrefixL wd p = true) :
    fsExists p (extract_feature wd reportFile overwrite runEffect outcome fs)
      = false := by
  unfold extract_feature
  by_cases hskip : (fsExists reportFile fs && !overwrite) = true
  · simp only [hskip, if_pos]
    exact hfresh p hp
  · simp only [hskip, if_neg, Bool.false_eq_true, not_false_iff]
    have h1 : fsExists wd (runEffect (fsMkdirP wd fs)) = true :=
      heff _ (fsExists_fsMkdirP wd fs)
    cases outcome <;>
      simpa [delete_working_dir, h1] using
        fsExists_fsRemoveTree wd p (runEffect (fsMkdirP wd fs)) hp

/-- C5 witness: a concrete task (overwrite enabled, failing run that left
an unpack area in the workspace) ends with the workspace subtree gone. -/
theorem C5_workspace_cleanup_witness :
    isPrefixL wd0 (wd0 ++ strL "/unpack") = true ∧
    fsExists (wd0 ++ strL "/unpack")
      (extract_feature wd0 rf0 true runEffect0 .failure fs0) = false := by
  refine ⟨by decide, ?_⟩
  refine C5_workspace_cleanup wd0 rf0 true runEffect0 .failure fs0 _ ?_ ?_
    (by decide)
  · intro q hq
    by_cases hqr : q = rf0
    · subst hqr
      exact absurd hq (by decide)
    · have hrq : rf0 ≠ q := fun hh => hqr hh.symm
      simp [fs0, fsExists, fsLookup, hrq]
  · intro g hg
    exact fsExists_mono_append _ _ _ hg

/-! ## Claim C9 -/

/-- C9: if the report file for the sample already exists and overwriting
is disabled, `extract_feature` is a no-op on the filesystem: it returns
before creating the workspace or running the extractor, no write occurs,
and the previously written report file keeps its exact content. -/
theorem C9_persist_noop (wd reportFile : Str) (runEffect : FS → FS)
    (outcome : TaskOutcome) (fs : FS) (c : Str)
    (h : fsLookup reportFile fs = some c) :
    extract_feature wd reportFile false runEffect outcome fs = fs ∧
    fsLookup reportFile
      (extract_feature wd reportFile false runEffect outcome fs) = some c := by
  have hex : fsExists reportFile fs = true := by simp [fsExists, h]
  constructor
  · simp [extract_feature, hex]
  · simp [extract_feature, hex, h]

/-- C9 witness: with the report already present and `overwrite = false`,
the concrete filesystem is returned unchanged and the old report content
survives byte-identically. -/
theorem C9_persist_noop_witness :
    fsLookup rf0 fs0 = some (strL "OLDREPORT") ∧
    extract_feature wd0 rf0 false runEffect0 .success fs0 = fs0 :=
  ⟨by decide,
   (C9_persist_noop wd0 rf0 runEffect0 .success fs0 (strL "OLDREPORT")
     (by decide)).1⟩

/-! ## Claim C8 -/

/-- Permuting a list permutes bounded existentials over it. -/
theorem exists_mem_of_perm {α : Type} {l1 l2 : List α} (h : l1.Perm l2)
    (P : α → Prop) : (∃ v ∈ l1, P v) ↔ ∃ v ∈ l2, P v := by
  constructor
  · rintro ⟨v, hv, hP⟩
    exact ⟨v, h.mem_iff.1 hv, hP⟩
  · rintro ⟨v, hv, hP⟩
    exact ⟨v, h.mem_iff.2 hv, hP⟩

/-- C8 counterexample: `check_api_permissions` returns
`list(api_permissions)` — an interpreter-chosen enumeration of a hash
`set`, so two complete runs may legitimately enumerate the same permission
set in different orders (here: identity versus reversed, both permutations
of the accumulated set); the persisted feature vectors then have the same
key set but different key orderings, refuting "the api-permission
category's order does not vary between runs". -/
theorem C8_counterexample :
    (check_api_permissions_core apiTable apiContent).1 =
      [strL "p.x", strL "q.y"] ∧
    (check_api_permissions id apiTable apiContent).1.Perm
      (check_api_permissions List.reverse apiTable apiContent).1 ∧
    dictKeys (report_to_feature_vector
        (reportWithApiPerms (check_api_permissions id apiTable apiContent).1))
      ≠
    dictKeys (report_to_feature_vector
        (reportWithApiPerms
          (check_api_permissions List.reverse apiTable apiContent).1)) := by
  decide

/-- C8 (amended): the encoding is stable as a key *set* but not as a key
*ordering*: for a fixed sample whose scans yield the same raw findings,
two runs that enumerate the api-permission set in different orders
(any permutation) produce feature vectors with exactly the same keys,
though possibly in different positions. -/
theorem C8_amended_key_set_stable (r : Report) (l2 : List Str)
    (h : r.api_permissions.Perm l2) (a : Str) :
    (a ∈ dictKeys (report_to_feature_vector r) ↔
      a ∈ dictKeys (report_to_feature_vector
        { r with api_permissions := l2 })) := by
  rw [mem_dictKeys_report_to_feature_vector,
    mem_dictKeys_report_to_feature_vector]
  simp only [plainProduces]
  rw [exists_mem_of_perm h
    (fun v => sTrim v ≠ [] ∧ a = key_fmt (strL "api_permissions") v)]

/-- C8 witness: the two concrete enumerations of the permission set
`{p.x, q.y}` agree on membership of the `api_permissions::p_x` key. -/
theorem C8_amended_witness :
    (reportWithApiPerms [strL "p.x", strL "q.y"]).api_permissions.Perm
      [strL "q.y", strL "p.x"] ∧
    (key_fmt (strL "api_permissions") (strL "p.x") ∈
        dictKeys (report_to_feature_vector
          (reportWithApiPerms [strL "p.x", strL "q.y"])) ↔
      key_fmt (strL "api_permissions") (strL "p.x") ∈
        dictKeys (report_to_feature_vector
          { reportWithApiPerms [strL "p.x", strL "q.y"] with
            api_permissions := [strL "q.y", strL "p.x"] })) :=
  ⟨by decide, C8_amended_key_set_stable _ _ (by decide) _⟩

/-! ## Claim C10 -/

/-- C10: in `get_services_receivers` the choice
`match.group(1) if match.group(2) else match.group(1)` yields the literal
`android:name` value in both arms — for a block carrying both a literal
value and a `Raw` resolved value, the extracted name is the literal, not
the `Raw` value, contradicting the code's own comment ("use the `Raw`
value as it represents the resolved resource") and the precedence used by
the activity and provider extraction. -/
theorem C10_literal_over_raw :
    get_services_receivers
      [some (strL "@0x7f050001", some (strL "com.example.MyService"))] =
      [strL "@0x7f050001"] ∧
    pick_service_receiver_name (strL "@0x7f050001")
      (some (strL "com.example.MyService")) = strL "@0x7f050001" ∧
    pick_activity_name (strL "@0x7f050001")
      (some (strL "com.example.MyService")) = strL "com.example.MyService" := by
  decide

end Drebin
